import Mathlib

/-! Shallow embedding of the videoio backend-abstraction header
`src/3rdparty/opencv-4.5.4/modules/videoio/src/cap_interface.hpp`:
the `VideoParameters` bag with consumption tracking, the legacy
`CvCapture` / `CvVideoWriter` structs, and the `LegacyCapture` /
`LegacyWriter` adapters, together with proofs of the specification's
testable properties. Machine `int` values are modelled as `Int` (no
arithmetic is performed on them, so overflow never enters), `double`
values as `Rat`, fallible calls as `Except`/`Option`, and the mutable
`isConsumed` flag by explicit state passing (a lookup returns the
updated bag alongside its result). -/

namespace CapInterface

/-- One entry of the parameter bag (`VideoParameters::VideoParameter`):
an integer key, an integer value, and a consumption flag. -/
structure VideoParameter where
  key : Int
  value : Int
  isConsumed : Bool
deriving DecidableEq

/-- The parameter bag (`cv::VideoParameters`): an ordered sequence of
entries (the private `params_` vector). -/
structure VideoParameters where
  params : List VideoParameter
deriving DecidableEq

/-- `castParameterTo<T>` instantiated at a non-bool integral type: a direct
`static_cast` of the stored int, the identity on the modelled value. -/
def castParameterTo (paramValue : Int) : Int :=
  paramValue

/-- The `bool` specialization of `castParameterTo`: nonzero means true. -/
def castParameterToBool (paramValue : Int) : Bool :=
  paramValue != 0

/-- `VideoParameters::add`: append a fresh, unconsumed entry. -/
def VideoParameters.add (b : VideoParameters) (key value : Int) : VideoParameters :=
  ⟨b.params ++ [⟨key, value, false⟩]⟩

/-- The pair-building loop of `VideoParameters(const std::vector<int>&)`:
one entry `(params[i], params[i+1])` for `i = 0, 2, 4, ...`; the loop body
runs only on even-length input, which the constructor has already checked. -/
def buildPairs : List Int → List VideoParameter
  | k :: v :: rest => ⟨k, v, false⟩ :: buildPairs rest
  | _ => []

/-- `VideoParameters::VideoParameters(const std::vector<int>&)`: fails with
`StsVecLengthErr` on odd length, otherwise builds one entry per
(key, value) pair, preserving order. -/
def VideoParameters.construct (params : List Int) : Except String VideoParameters :=
  if params.length % 2 != 0 then
    Except.error "Vector of VideoWriter parameters should have even length"
  else
    Except.ok ⟨buildPairs params⟩

/-- `VideoParameters::has`: some entry with this key exists; consumption
flags are not touched. -/
def VideoParameters.has (b : VideoParameters) (key : Int) : Bool :=
  b.params.any (fun p => p.key == key)

/-- The `std::find_if` shared by both getters: the first entry whose key
matches. -/
def VideoParameters.find (b : VideoParameters) (key : Int) : Option VideoParameter :=
  b.params.find? (fun p => p.key == key)

/-- The `it->isConsumed = true` side effect: mark the first entry whose key
matches as consumed, leaving every other entry in place. -/
def markFirst (key : Int) : List VideoParameter → List VideoParameter
  | [] => []
  | p :: rest =>
    if p.key == key then { p with isConsumed := true } :: rest
    else p :: markFirst key rest

/-- The bag after the consumption side effect of a successful lookup. -/
def VideoParameters.consume (b : VideoParameters) (key : Int) : VideoParameters :=
  ⟨markFirst key b.params⟩

/-- `VideoParameters::get<ValueType>(int)` (required form), the cast left
abstract: return the first matching entry value through `cast` and mark the
entry consumed, or fail with `StsBadArg` when the key is absent. -/
def VideoParameters.getWith (cast : Int → α) (b : VideoParameters) (key : Int) :
    Except String (α × VideoParameters) :=
  match b.find key with
  | some p => Except.ok (cast p.value, b.consume key)
  | none => Except.error "Missing value for parameter"

/-- `get<int>(key)` (required form). -/
def VideoParameters.get (b : VideoParameters) (key : Int) :
    Except String (Int × VideoParameters) :=
  b.getWith castParameterTo key

/-- `get<bool>(key)` (required form). -/
def VideoParameters.getBool (b : VideoParameters) (key : Int) :
    Except String (Bool × VideoParameters) :=
  b.getWith castParameterToBool key

/-- `VideoParameters::get<ValueType>(int, ValueType)` (optional form): same
lookup and consumption marking, but the default is returned when absent. -/
def VideoParameters.getWithD (cast : Int → α) (b : VideoParameters) (key : Int)
    (defaultValue : α) : α × VideoParameters :=
  match b.find key with
  | some p => (cast p.value, b.consume key)
  | none => (defaultValue, b)

/-- `get<int>(key, default)` (optional form). -/
def VideoParameters.getD (b : VideoParameters) (key : Int) (d : Int) :
    Int × VideoParameters :=
  b.getWithD castParameterTo key d

/-- `VideoParameters::getUnused`: keys of never-consumed entries, in
original order. -/
def VideoParameters.getUnused (b : VideoParameters) : List Int :=
  (b.params.filter (fun p => !p.isConsumed)).map (fun p => p.key)

/-- `VideoParameters::getIntVector`: flatten the bag back to the
alternating key, value layout, in current order. -/
def VideoParameters.getIntVector (b : VideoParameters) : List Int :=
  b.params.flatMap (fun p => [p.key, p.value])

/-- The key sequence of a bag, in original order. -/
def VideoParameters.keys (b : VideoParameters) : List Int :=
  b.params.map (fun p => p.key)

/-- The consumption side effect of one lookup through the optional-form
typed getter (value discarded, updated bag kept). -/
def consumeOne (b : VideoParameters) (key : Int) : VideoParameters :=
  (b.getD key 0).2

/-- Looking up a sequence of keys through the typed getter, keeping only
the consumption side effects. -/
def consumeKeys (b : VideoParameters) (ks : List Int) : VideoParameters :=
  ks.foldl consumeOne b

/-- The raw legacy image as the adapter sees it: a row-origin tag and the
pixel rows. The pixel-buffer representation itself is out of scope in the
spec; rows of integer pixels stand in for the raster data. -/
structure IplImage where
  origin : Nat
  rows : List (List Int)
deriving DecidableEq

/-- Modelled from the spec: the top-to-bottom row-origin tag value
(`IPL_ORIGIN_TL`, defined in a core C header that is not under src/); only
equality with the tag is ever tested by the adapter. -/
def IPL_ORIGIN_TL : Nat := 0

/-- Legacy `CvCapture` behaviour as one bundle of results for the four
virtual operations the adapter forwards to. -/
structure CvCapture where
  getPropertyImpl : Int → Rat
  grabFrameImpl : Bool
  retrieveFrameImpl : Int → Option IplImage
  getCaptureDomainImpl : Int

/-- Legacy `CvVideoWriter` behaviour. -/
structure CvVideoWriter where
  getPropertyImpl : Int → Rat
  getCaptureDomainImpl : Int

/-- Modelled from the spec: `cvGrabFrame` forwards to the wrapped object
(the C wrapper itself is not under src/; the adapter does the null check
before calling it). -/
def cvGrabFrame (cap : CvCapture) : Bool :=
  cap.grabFrameImpl

/-- Modelled from the spec: `cvRetrieveFrame` requests the raw image from
the wrapped object, yielding nothing when no image is available or no
object is attached (the C wrapper is not under src/). -/
def cvRetrieveFrame (cap : Option CvCapture) (channel : Int) : Option IplImage :=
  match cap with
  | some c => c.retrieveFrameImpl channel
  | none => none

/-- Modelled from the spec: `cv::flip` with flip code 0 (not under src/)
flips vertically, output row r being source row (height - 1 - r); on a row
list this is reversal. -/
def flipVertical (rows : List (List Int)) : List (List Int) :=
  rows.reverse

/-- `LegacyCapture`: owns one optional legacy capture object. -/
structure LegacyCapture where
  cap : Option CvCapture

/-- `LegacyCapture::getProperty`: delegate when attached, else 0. -/
def LegacyCapture.getProperty (lc : LegacyCapture) (propId : Int) : Rat :=
  match lc.cap with
  | some c => c.getPropertyImpl propId
  | none => 0

/-- `LegacyCapture::grabFrame`: delegate when attached, else false. -/
def LegacyCapture.grabFrame (lc : LegacyCapture) : Bool :=
  match lc.cap with
  | some c => cvGrabFrame c
  | none => false

/-- `LegacyCapture::retrieveFrame`: no image releases the output and
returns false; a top-to-bottom image is copied as is; any other origin is
flipped vertically. The result pair is (success, output buffer), `none`
standing for the released/empty buffer. -/
def LegacyCapture.retrieveFrame (lc : LegacyCapture) (channel : Int) :
    Bool × Option (List (List Int)) :=
  match cvRetrieveFrame lc.cap channel with
  | none => (false, none)
  | some img =>
    if img.origin == IPL_ORIGIN_TL then (true, some img.rows)
    else (true, some (flipVertical img.rows))

/-- `LegacyCapture::isOpened`: whether a legacy object is attached. -/
def LegacyCapture.isOpened (lc : LegacyCapture) : Bool :=
  lc.cap.isSome

/-- `LegacyCapture::getCaptureDomain`: delegate when attached, else 0. -/
def LegacyCapture.getCaptureDomain (lc : LegacyCapture) : Int :=
  match lc.cap with
  | some c => c.getCaptureDomainImpl
  | none => 0

/-- Modelled from the spec: the generic any-backend sentinel `cv::CAP_ANY`
(defined in a header that is not under src/); the spec states the adapter
null-branch value zero is distinct from it, and gives no concrete number,
so a nonzero value is chosen. -/
def CAP_ANY : Int := 1

/-- `LegacyWriter`: owns one optional legacy writer object. -/
structure LegacyWriter where
  writer : Option CvVideoWriter

/-- `LegacyWriter::getProperty`: delegate when attached, else 0. -/
def LegacyWriter.getProperty (lw : LegacyWriter) (propId : Int) : Rat :=
  match lw.writer with
  | some w => w.getPropertyImpl propId
  | none => 0

/-- `LegacyWriter::setProperty`: unconditionally reports failure. -/
def LegacyWriter.setProperty (_lw : LegacyWriter) (_propId : Int) (_value : Rat) : Bool :=
  false

/-- `LegacyWriter::isOpened`: whether a legacy writer object is attached. -/
def LegacyWriter.isOpened (lw : LegacyWriter) : Bool :=
  lw.writer.isSome

/-- `LegacyWriter::getCaptureDomain`: delegate when attached, else 0. -/
def LegacyWriter.getCaptureDomain (lw : LegacyWriter) : Int :=
  match lw.writer with
  | some w => w.getCaptureDomainImpl
  | none => 0

theorem getIntVector_buildPairs : ∀ (S : List Int), S.length % 2 = 0 →
    VideoParameters.getIntVector ⟨buildPairs S⟩ = S
  | [], _ => rfl
  | [_], h => by simp at h
  | k :: v :: rest, h => by
    have hrest : rest.length % 2 = 0 := by
      simp only [List.length_cons] at h
      omega
    have ih := getIntVector_buildPairs rest hrest
    simp only [buildPairs, VideoParameters.getIntVector, List.flatMap_cons] at ih ⊢
    rw [ih]
    rfl

theorem buildPairs_unconsumed : ∀ (S : List Int), ∀ p ∈ buildPairs S, p.isConsumed = false
  | [] => by simp [buildPairs]
  | [_] => by simp [buildPairs]
  | k :: v :: rest => by
    intro p hp
    simp only [buildPairs, List.mem_cons] at hp
    rcases hp with h | h
    · subst h; rfl
    · exact buildPairs_unconsumed rest p h

/-- C1: constructing a bag from an even-length flat sequence succeeds and
`getIntVector` round-trips it back exactly, in order; an odd-length
sequence fails with the invalid-argument condition and builds no bag. -/
theorem construct_getIntVector_roundtrip (S : List Int) :
    (S.length % 2 = 0 →
      ∃ b, VideoParameters.construct S = Except.ok b ∧ b.getIntVector = S) ∧
    (S.length % 2 ≠ 0 →
      VideoParameters.construct S =
        Except.error "Vector of VideoWriter parameters should have even length") := by
  constructor
  · intro h
    refine ⟨⟨buildPairs S⟩, ?_, getIntVector_buildPairs S h⟩
    simp [VideoParameters.construct, h]
  · intro h
    have h1 : S.length % 2 = 1 := by omega
    simp [VideoParameters.construct, h1]

/-- C1 witness at the even input [10, 1, 20, 0] and the odd input
[1, 2, 3]. -/
theorem construct_getIntVector_roundtrip_witness :
    (∃ b, VideoParameters.construct [10, 1, 20, 0] = Except.ok b ∧
        b.getIntVector = [10, 1, 20, 0]) ∧
    VideoParameters.construct [1, 2, 3] =
      Except.error "Vector of VideoWriter parameters should have even length" :=
  ⟨(construct_getIntVector_roundtrip [10, 1, 20, 0]).1 (by decide),
   (construct_getIntVector_roundtrip [1, 2, 3]).2 (by decide)⟩

/-- C2: when the wrapped object yields a raw image, `retrieveFrame` copies
a top-to-bottom image to the output unchanged and flips a bottom-to-top
image vertically, so output row r is source row (height - 1 - r); either
way the produced buffer is in top-to-bottom order. -/
theorem retrieveFrame_orientation (lc : LegacyCapture) (channel : Int)
    (img : IplImage) (h : cvRetrieveFrame lc.cap channel = some img) :
    (img.origin = IPL_ORIGIN_TL →
      lc.retrieveFrame channel = (true, some img.rows)) ∧
    (img.origin ≠ IPL_ORIGIN_TL →
      lc.retrieveFrame channel = (true, some (flipVertical img.rows)) ∧
      (flipVertical img.rows).length = img.rows.length ∧
      ∀ r, r < img.rows.length →
        (flipVertical img.rows)[r]? = img.rows[img.rows.length - 1 - r]?) := by
  constructor
  · intro ho
    simp [LegacyCapture.retrieveFrame, h, ho]
  · intro ho
    refine ⟨?_, ?_, ?_⟩
    · simp [LegacyCapture.retrieveFrame, h, ho]
    · simp [flipVertical]
    · intro r hr
      simpa [flipVertical] using List.getElem?_reverse hr

/-- A concrete top-to-bottom legacy image for evaluation. -/
def imgTL : IplImage := ⟨0, [[10], [20]]⟩

/-- A concrete bottom-to-top legacy image for evaluation. -/
def imgBL : IplImage := ⟨1, [[10], [20]]⟩

/-- A legacy capture object yielding the top-to-bottom image. -/
def capTL : CvCapture := ⟨fun _ => 0, true, fun _ => some imgTL, 3⟩

/-- A legacy capture object yielding the bottom-to-top image. -/
def capBL : CvCapture := ⟨fun _ => 0, true, fun _ => some imgBL, 3⟩

/-- C2 witness: the top-to-bottom image passes through unchanged and the
bottom-to-top image comes out with its rows reversed. -/
theorem retrieveFrame_orientation_witness :
    (LegacyCapture.mk (some capTL)).retrieveFrame 0 = (true, some [[10], [20]]) ∧
    (LegacyCapture.mk (some capBL)).retrieveFrame 0 = (true, some [[20], [10]]) := by
  refine ⟨(retrieveFrame_orientation ⟨some capTL⟩ 0 imgTL rfl).1 rfl, ?_⟩
  have h := (retrieveFrame_orientation ⟨some capBL⟩ 0 imgBL rfl).2 (by decide)
  simpa [flipVertical, imgBL] using h.1

theorem find?_first (l : List VideoParameter) (k : Int) (i : Nat)
    (p : VideoParameter) (hp : l[i]? = some p) (hk : p.key = k)
    (hfirst : ∀ j, j < i → ∀ q, l[j]? = some q → q.key ≠ k) :
    l.find? (fun q => q.key == k) = some p := by
  induction l generalizing i with
  | nil => simp at hp
  | cons a rest ih =>
    cases i with
    | zero =>
      simp only [List.getElem?_cons_zero, Option.some.injEq] at hp
      subst hp
      exact List.find?_cons_of_pos _ (by simp [hk])
    | succ n =>
      have ha : a.key ≠ k := hfirst 0 (Nat.succ_pos n) a (by simp)
      rw [List.find?_cons_of_neg _ (by simp [ha])]
      exact ih n (by simpa using hp)
        (fun j hj q hq => hfirst (j + 1) (Nat.succ_lt_succ hj) q (by simpa using hq))

theorem markFirst_length (k : Int) (l : List VideoParameter) :
    (markFirst k l).length = l.length := by
  induction l with
  | nil => rfl
  | cons a rest ih =>
    cases ha : (a.key == k) with
    | true => simp [markFirst, ha]
    | false => simp [markFirst, ha, ih]

theorem find?_markFirst (k : Int) (l : List VideoParameter) (p : VideoParameter)
    (h : l.find? (fun q => q.key == k) = some p) :
    (markFirst k l).find? (fun q => q.key == k) =
      some { p with isConsumed := true } := by
  induction l with
  | nil => simp at h
  | cons a rest ih =>
    cases ha : (a.key == k) with
    | true =>
      rw [List.find?_cons_of_pos (p := fun q => q.key == k) rest ha] at h
      injection h with h
      subst h
      simp [markFirst, ha]
    | false =>
      rw [List.find?_cons_of_neg _ (by simp [ha])] at h
      simp [markFirst, ha, ih h]

theorem markFirst_getElem? (k : Int) (l : List VideoParameter) (i : Nat)
    (p : VideoParameter) (hp : l[i]? = some p) (hk : p.key = k)
    (hfirst : ∀ j, j < i → ∀ q, l[j]? = some q → q.key ≠ k) :
    (markFirst k l)[i]? = some { p with isConsumed := true } := by
  induction l generalizing i with
  | nil => simp at hp
  | cons a rest ih =>
    cases i with
    | zero =>
      simp only [List.getElem?_cons_zero, Option.some.injEq] at hp
      subst hp
      simp [markFirst, hk]
    | succ n =>
      have ha : a.key ≠ k := hfirst 0 (Nat.succ_pos n) a (by simp)
      have hbeq : (a.key == k) = false := by simp [ha]
      simp only [markFirst, hbeq, Bool.false_eq_true, if_false, List.getElem?_cons_succ]
      exact ih n (by simpa using hp)
        (fun j hj q hq => hfirst (j + 1) (Nat.succ_lt_succ hj) q (by simpa using hq))

/-- C3: when key k occurs in the bag, the required typed getters return the
first matching entry value (boolean conversion: true iff the stored int is
nonzero; other numeric conversion: a direct cast), mark exactly that entry
consumed without removing it, and a second get on the same key still
succeeds with the same value. -/
theorem get_present_first_match (b : VideoParameters) (k : Int) (i : Nat)
    (p : VideoParameter) (hp : b.params[i]? = some p) (hk : p.key = k)
    (hfirst : ∀ j, j < i → ∀ q, b.params[j]? = some q → q.key ≠ k) :
    b.get k = Except.ok (castParameterTo p.value, b.consume k) ∧
    b.getBool k = Except.ok (castParameterToBool p.value, b.consume k) ∧
    (b.consume k).params.length = b.params.length ∧
    (b.consume k).params[i]? = some { p with isConsumed := true } ∧
    (b.consume k).get k =
      Except.ok (castParameterTo p.value, (b.consume k).consume k) := by
  have hf : b.params.find? (fun q => q.key == k) = some p :=
    find?_first b.params k i p hp hk hfirst
  have hf2 : (markFirst k b.params).find? (fun q => q.key == k) =
      some { p with isConsumed := true } := find?_markFirst k b.params p hf
  refine ⟨?_, ?_, markFirst_length k b.params,
    markFirst_getElem? k b.params i p hp hk hfirst, ?_⟩
  · simp [VideoParameters.get, VideoParameters.getWith, VideoParameters.find, hf]
  · simp [VideoParameters.getBool, VideoParameters.getWith, VideoParameters.find, hf]
  · simp [VideoParameters.get, VideoParameters.getWith, VideoParameters.find,
      VideoParameters.consume, hf2, castParameterTo]

/-- A concrete one-entry bag for evaluation. -/
def bag1 : VideoParameters := ⟨[⟨10, 5, false⟩]⟩

/-- C3 witness on the one-entry bag: the first and the repeated required
get on key 10 both return 5. -/
theorem get_present_first_match_witness :
    bag1.get 10 = Except.ok (5, bag1.consume 10) ∧
    (bag1.consume 10).get 10 =
      Except.ok (5, (bag1.consume 10).consume 10) := by
  have h := get_present_first_match bag1 10 0 ⟨10, 5, false⟩ rfl rfl
    (fun j hj q hq => absurd hj (Nat.not_lt_zero j))
  exact ⟨h.1, h.2.2.2.2⟩

/-- C4: when key k is absent, `has` is false, the required get fails with
the missing-parameter condition, and the optional get returns the default
with the bag untouched. -/
theorem get_absent (b : VideoParameters) (k : Int)
    (h : ∀ p ∈ b.params, p.key ≠ k) :
    b.has k = false ∧
    b.get k = Except.error "Missing value for parameter" ∧
    ∀ d : Int, b.getD k d = (d, b) := by
  have hf : b.params.find? (fun q => q.key == k) = none :=
    List.find?_eq_none.mpr (fun p hp => by simp [h p hp])
  refine ⟨?_, ?_, fun d => ?_⟩
  · simp only [VideoParameters.has, List.any_eq_false]
    intro p hp
    simp [h p hp]
  · simp [VideoParameters.get, VideoParameters.getWith, VideoParameters.find, hf]
  · simp [VideoParameters.getD, VideoParameters.getWithD, VideoParameters.find, hf]

/-- C4 witness: key 99 is absent from the one-entry bag; the default 7
comes back with the bag unchanged. -/
theorem get_absent_witness :
    bag1.has 99 = false ∧
    bag1.get 99 = Except.error "Missing value for parameter" ∧
    bag1.getD 99 7 = (7, bag1) := by
  have h := get_absent bag1 99 (by decide)
  exact ⟨h.1, h.2.1, h.2.2 7⟩

/-- A concrete bag with a duplicated key for evaluation. -/
def dupBag : VideoParameters := ⟨[⟨1, 0, false⟩, ⟨1, 0, false⟩]⟩

/-- C5 counterexample: in a freshly built bag whose key 1 occurs twice,
looking up every key of the bag through a typed getter leaves `getUnused`
nonempty, because each lookup marks only the first matching entry. -/
theorem getUnused_duplicate_key_cex :
    (∀ p ∈ dupBag.params, p.isConsumed = false) ∧
    dupBag.keys = [1, 1] ∧
    (consumeKeys dupBag dupBag.keys).getUnused = [1] ∧
    (consumeKeys dupBag dupBag.keys).getUnused ≠ [] := by
  decide

theorem consumeOne_cons_ne (p : VideoParameter) (rest : List VideoParameter)
    (k : Int) (h : p.key ≠ k) :
    consumeOne ⟨p :: rest⟩ k = ⟨p :: (consumeOne ⟨rest⟩ k).params⟩ := by
  have hbeq : (p.key == k) = false := by simp [h]
  cases hf : rest.find? (fun q => q.key == k) with
  | none =>
    simp [consumeOne, VideoParameters.getD, VideoParameters.getWithD,
      VideoParameters.find, hbeq, hf]
  | some q =>
    simp [consumeOne, VideoParameters.getD, VideoParameters.getWithD,
      VideoParameters.find, VideoParameters.consume, markFirst, hbeq, hf]

theorem consumeKeys_cons_ne (p : VideoParameter) (rest : List VideoParameter)
    (ks : List Int) (h : ∀ k ∈ ks, p.key ≠ k) :
    consumeKeys ⟨p :: rest⟩ ks = ⟨p :: (consumeKeys ⟨rest⟩ ks).params⟩ := by
  induction ks generalizing rest with
  | nil => rfl
  | cons k ks ih =>
    have h1 : p.key ≠ k := h k (List.mem_cons_self k ks)
    have h2 : ∀ x ∈ ks, p.key ≠ x := fun x hx => h x (List.mem_cons_of_mem k hx)
    show consumeKeys (consumeOne ⟨p :: rest⟩ k) ks = _
    rw [consumeOne_cons_ne p rest k h1]
    exact ih (consumeOne ⟨rest⟩ k).params h2

theorem consumeKeys_keys_all_consumed : ∀ (l : List VideoParameter),
    (l.map (fun p => p.key)).Nodup →
    ∀ p ∈ (consumeKeys ⟨l⟩ (l.map (fun p => p.key))).params, p.isConsumed = true
  | [], _, p, hp => by simp [consumeKeys] at hp
  | a :: rest, hnd, p, hp => by
    have hnd1 : (a.key :: rest.map (fun p => p.key)).Nodup := hnd
    have hnd2 := List.nodup_cons.mp hnd1
    have hnotin : a.key ∉ rest.map (fun p => p.key) := hnd2.1
    have hndrest : (rest.map (fun p => p.key)).Nodup := hnd2.2
    have hstep : consumeOne ⟨a :: rest⟩ a.key =
        ⟨{ a with isConsumed := true } :: rest⟩ := by
      simp [consumeOne, VideoParameters.getD, VideoParameters.getWithD,
        VideoParameters.find, VideoParameters.consume, markFirst]
    have hrest : ∀ x ∈ rest.map (fun p => p.key),
        ({ a with isConsumed := true } : VideoParameter).key ≠ x := by
      intro x hx he
      subst he
      exact hnotin hx
    have hsplit : consumeKeys ⟨a :: rest⟩ ((a :: rest).map (fun p => p.key)) =
        ⟨{ a with isConsumed := true } ::
          (consumeKeys ⟨rest⟩ (rest.map (fun p => p.key))).params⟩ := by
      show consumeKeys (consumeOne ⟨a :: rest⟩ a.key) (rest.map (fun p => p.key)) = _
      rw [hstep]
      exact consumeKeys_cons_ne _ rest _ hrest
    rw [hsplit] at hp
    rcases List.mem_cons.mp hp with hh | hh
    · rw [hh]
    · exact consumeKeys_keys_all_consumed rest hndrest p hh

/-- C5 amended: for every bag, before any lookup `getUnused` is the full
key sequence in original order; and, provided the bag keys are pairwise
distinct, after every key has been looked up through a typed getter
`getUnused` is empty. -/
theorem getUnused_fresh_and_after_all (b : VideoParameters)
    (hfresh : ∀ p ∈ b.params, p.isConsumed = false) :
    b.getUnused = b.keys ∧
    (b.keys.Nodup → (consumeKeys b b.keys).getUnused = []) := by
  constructor
  · unfold VideoParameters.getUnused VideoParameters.keys
    rw [List.filter_eq_self.mpr (fun p hp => by simp [hfresh p hp])]
  · intro hnd
    have hall := consumeKeys_keys_all_consumed b.params hnd
    unfold VideoParameters.getUnused
    rw [List.filter_eq_nil_iff.mpr (fun p hp => by simp [hall p hp])]
    rfl

/-- A concrete two-entry bag with distinct keys for evaluation. -/
def bag2 : VideoParameters := ⟨[⟨10, 1, false⟩, ⟨20, 0, false⟩]⟩

/-- C5 amended witness on the bag built from [10, 1, 20, 0]: the fresh bag
reports keys [10, 20], and after both keys are looked up nothing is left. -/
theorem getUnused_fresh_and_after_all_witness :
    bag2.getUnused = [10, 20] ∧ (consumeKeys bag2 bag2.keys).getUnused = [] := by
  have h := getUnused_fresh_and_after_all bag2 (by decide)
  exact ⟨h.1, h.2 (by decide)⟩

/-- C6: when no frame is available, `retrieveFrame` returns false and
leaves the output buffer released/empty. -/
theorem retrieveFrame_noFrame (lc : LegacyCapture) (channel : Int)
    (h : cvRetrieveFrame lc.cap channel = none) :
    lc.retrieveFrame channel = (false, none) := by
  simp [LegacyCapture.retrieveFrame, h]

/-- C6 witness on an unattached adapter, channel 5. -/
theorem retrieveFrame_noFrame_witness :
    (LegacyCapture.mk none).retrieveFrame 5 = (false, none) :=
  retrieveFrame_noFrame ⟨none⟩ 5 rfl

/-- C7: for both adapters `isOpened` is false exactly when the wrapped
legacy object is absent and true otherwise, independent of the wrapped
object behaviour. -/
theorem isOpened_iff_attached (lc : LegacyCapture) (lw : LegacyWriter) :
    (lc.isOpened = false ↔ lc.cap = none) ∧
    (lw.isOpened = false ↔ lw.writer = none) ∧
    (∀ c : CvCapture, (LegacyCapture.mk (some c)).isOpened = true) ∧
    (∀ w : CvVideoWriter, (LegacyWriter.mk (some w)).isOpened = true) := by
  refine ⟨?_, ?_, fun c => rfl, fun w => rfl⟩
  · cases lc with
    | mk cap => cases cap <;> simp [LegacyCapture.isOpened]
  · cases lw with
    | mk w => cases w <;> simp [LegacyWriter.isOpened]

/-- C7 witness: an unattached capture adapter is closed and an attached
writer adapter is open. -/
theorem isOpened_iff_attached_witness :
    (LegacyCapture.mk none).isOpened = false ∧
    (LegacyWriter.mk (some ⟨fun _ => 0, 3⟩)).isOpened = true := by
  constructor
  · exact (isOpened_iff_attached ⟨none⟩ ⟨none⟩).1.mpr rfl
  · exact (isOpened_iff_attached ⟨none⟩ ⟨none⟩).2.2.2 ⟨fun _ => 0, 3⟩

/-- C8: `getCaptureDomain` delegates to the wrapped object when present and
returns zero when unattached, a value distinct from the generic any
sentinel. -/
theorem getCaptureDomain_unattached_zero (lc : LegacyCapture) :
    (∀ c, lc.cap = some c → lc.getCaptureDomain = c.getCaptureDomainImpl) ∧
    (lc.cap = none → lc.getCaptureDomain = 0) ∧
    (0 : Int) ≠ CAP_ANY := by
  refine ⟨?_, ?_, by decide⟩
  · intro c hc
    simp [LegacyCapture.getCaptureDomain, hc]
  · intro hc
    simp [LegacyCapture.getCaptureDomain, hc]

/-- C8 witness: an attached adapter reports the wrapped object's domain and
an unattached adapter reports zero. -/
theorem getCaptureDomain_unattached_zero_witness :
    (LegacyCapture.mk (some capTL)).getCaptureDomain = 3 ∧
    (LegacyCapture.mk none).getCaptureDomain = 0 :=
  ⟨(getCaptureDomain_unattached_zero ⟨some capTL⟩).1 capTL rfl,
   (getCaptureDomain_unattached_zero ⟨none⟩).2.1 rfl⟩

/-- C9: the legacy writer adapter's `setProperty` reports failure for every
property id and value, whether or not a writer object is attached. -/
theorem setProperty_always_false (lw : LegacyWriter) (propId : Int) (value : Rat) :
    lw.setProperty propId value = false :=
  rfl

/-- C10: on an unattached legacy capture adapter, `grabFrame` returns false
and `getProperty` returns zero: the null branch is total and never consults
a wrapped object. -/
theorem unattached_grab_getProperty (lc : LegacyCapture) (propId : Int)
    (h : lc.cap = none) :
    lc.grabFrame = false ∧ lc.getProperty propId = 0 := by
  constructor
  · simp [LegacyCapture.grabFrame, h]
  · simp [LegacyCapture.getProperty, h]

/-- C10 witness at property id 5. -/
theorem unattached_grab_getProperty_witness :
    (LegacyCapture.mk none).grabFrame = false ∧
    (LegacyCapture.mk none).getProperty 5 = 0 :=
  unattached_grab_getProperty ⟨none⟩ 5 rfl

end CapInterface
